import Mathlib

/-!
Verification of the state/broadcast core of `ios_simulator_mcp/dashboard.py`
(the `ToolCall` record, the `DashboardState` store, its mutation operations
`add_tool_call` / `complete_tool_call`, the `_broadcast` fan-out, the
`get_state` snapshot, and the `handle_websocket` registration path).

Modelling conventions:
* A Python `str` is a sequence of code points, modelled as `List Char`
  (`PyStr`); `str | None` becomes `Option PyStr`. Python truthiness of such a
  value (`if error:`) is the predicate `truthy` below: `None` and `""` are
  falsy. The Python string operations used by the code (`split`, `strip`,
  `startswith`, slicing, `len`) are modelled by the structurally recursive
  functions `splitLines`, `afterFirstSep`, `pyStrip`, `List.isPrefixOf`,
  `List.take`, `List.length`.
* `time.time()` is modelled as an explicit `now : Nat` argument threaded into
  every operation that reads the clock (integer seconds; no verified property
  depends on clock arithmetic beyond the subtraction the code performs).
* `datetime.fromtimestamp(ts).strftime("%H:%M:%S")` is modelled by `time_str`
  computing H:M:S from epoch seconds in UTC; no verified property inspects it.
* A Python statement that can raise (`line.split(": ", 1)[1]`, an
  `IndexError` when the separator is absent from the line) makes the
  enclosing function return `Except Unit …`; `.error ()` is the uncaught
  exception propagating to the caller, in which case the code after the
  raise (in particular the scheduling of the completion broadcast) does not
  run.
* `asyncio.create_task(self._broadcast(msg))` is a fire-and-forget task; at
  the trace level (see `Sys` below) mutation steps append the message to a
  FIFO `pending` queue and a separate `deliver` step runs one queued task.
-/

/-- View an `Except` as a sum, to decide equality of `Except` values. -/
def exceptToSum {ε α : Type} : Except ε α → ε ⊕ α
  | Except.error e => Sum.inl e
  | Except.ok a => Sum.inr a

instance {ε α : Type} [DecidableEq ε] [DecidableEq α] : DecidableEq (Except ε α) := fun x y =>
  decidable_of_iff (exceptToSum x = exceptToSum y) (by cases x <;> cases y <;> simp [exceptToSum])

/-- A Python `str`: a sequence of code points. -/
abbrev PyStr := List Char

/-- The code points of a string literal. -/
def pys (s : String) : PyStr := s.data

/-- Python truthiness of a `str | None` value: `None` and `""` are falsy. -/
def truthy : Option PyStr → Bool
  | none => false
  | some s => !s.isEmpty

/-- Python `s.split("\n")`: split at every newline; adjacent newlines and
newlines at either end produce empty pieces, and the result is never empty. -/
def splitLines : PyStr → List PyStr
  | [] => [[]]
  | c :: cs =>
    if c = '\n' then [] :: splitLines cs
    else
      match splitLines cs with
      | [] => [[c]]
      | p :: ps => (c :: p) :: ps

/-- Python `s.split(sep, 1)[1]` for a non-empty `sep`: the text after the
first occurrence of `sep`, or `none` when `sep` does not occur in `s` (in
which case the split yields a single piece and the `[1]` access raises
`IndexError`). -/
def afterFirstSep (sep : PyStr) : PyStr → Option PyStr
  | [] => none
  | c :: cs =>
    if sep.isPrefixOf (c :: cs) then some (List.drop sep.length (c :: cs))
    else afterFirstSep sep cs

/-- Python `s.strip()`: remove leading and trailing whitespace. -/
def pyStrip (s : PyStr) : PyStr :=
  ((s.dropWhile Char.isWhitespace).reverse.dropWhile Char.isWhitespace).reverse

/-- Tool-call arguments (`dict[str, Any]`), treated opaquely as an
association list; no verified property inspects argument values. -/
abbrev Args := List (PyStr × PyStr)

/-- The `ToolCall` dataclass: one logged operation invocation. -/
structure ToolCall where
  id : Nat
  timestamp : Nat
  tool_name : PyStr
  arguments : Args
  status : PyStr := pys "pending"
  result : Option PyStr := none
  error : Option PyStr := none
  duration_ms : Option Nat := none
  deriving DecidableEq, Repr

/-- The decimal digit character for `n % 10`. -/
def digitChar (n : Nat) : Char := Char.ofNat (48 + n % 10)

/-- Zero-padded two-digit rendering, as `%H`/`%M`/`%S` produce. -/
def two_digit (n : Nat) : PyStr := [digitChar (n / 10), digitChar n]

/-- Models `datetime.fromtimestamp(ts).strftime("%H:%M:%S")` (UTC, whole
seconds). No verified property depends on this formatting. -/
def time_str (ts : Nat) : PyStr :=
  two_digit (ts / 3600 % 24) ++ [':'] ++ two_digit (ts / 60 % 60) ++ [':'] ++ two_digit (ts % 60)

/-- The serialized (transport) form of a record, the dict built by
`ToolCall.to_dict`. -/
structure RecordDict where
  id : Nat
  timestamp : Nat
  time_str : PyStr
  tool_name : PyStr
  arguments : Args
  status : PyStr
  result : Option PyStr
  error : Option PyStr
  duration_ms : Option Nat
  deriving DecidableEq, Repr

/-- `ToolCall.to_dict`: the `result` field is
`self.result[:500] if self.result and len(self.result) > 500 else self.result`,
every other field is copied verbatim. The receiver is read, never written. -/
def to_dict (c : ToolCall) : RecordDict :=
  { id := c.id
    timestamp := c.timestamp
    time_str := time_str c.timestamp
    tool_name := c.tool_name
    arguments := c.arguments
    status := c.status
    result :=
      if truthy c.result && decide ((c.result.getD []).length > 500) then
        c.result.map (fun s => s.take 500)
      else c.result
    error := c.error
    duration_ms := c.duration_ms }

/-- The dict returned by `DashboardState.get_state`. -/
structure StateSnapshot where
  uptime : Nat
  tool_calls : List RecordDict
  device_info : Args
  wda_status : Args
  last_screenshot : Option PyStr
  recording_active : Bool
  total_calls : Nat
  deriving DecidableEq, Repr

/-- The messages passed to `_broadcast` (field `"type"` of the JSON object)
plus the `init` message sent by `handle_websocket`. -/
inductive Event where
  | init (snap : StateSnapshot)
  | tool_call (d : RecordDict)
  | tool_complete (d : RecordDict)
  | device_info (d : Args)
  | wda_status (d : Args)
  deriving DecidableEq, Repr

/-- `DashboardState` minus the websocket registry (the registry lives in the
trace-level system state `Sys`, since broadcasts are scheduled, not run,
by the store's mutation operations). -/
structure DashboardState where
  max_calls : Nat := 100
  tool_calls : List ToolCall := []
  call_counter : Nat := 0
  server_start_time : Nat
  device_info : Args := []
  wda_status : Args := []
  last_screenshot : Option PyStr := none
  recording_active : Bool := false
  deriving DecidableEq, Repr

/-- `DashboardState.add_tool_call`: allocate the next id, append a pending
record, trim to the most recent `max_calls`, and schedule a `tool_call`
broadcast. Returns the new store, the record, and the scheduled message. -/
def add_tool_call (now : Nat) (tool_name : PyStr) (arguments : Args)
    (st : DashboardState) : DashboardState × ToolCall × Event :=
  let counter := st.call_counter + 1
  let call : ToolCall :=
    { id := counter, timestamp := now, tool_name := tool_name, arguments := arguments }
  let calls := st.tool_calls ++ [call]
  let calls := if calls.length > st.max_calls then calls.drop (calls.length - st.max_calls) else calls
  ({ st with call_counter := counter, tool_calls := calls },
   call,
   Event.tool_call (to_dict call))

/-- Lines 91–97 of `complete_tool_call`: set `duration_ms`, then
`status`/`error` when `error` is truthy, else `status`/`result`. -/
def completeRecord (now : Nat) (call : ToolCall) (result error : Option PyStr) : ToolCall :=
  let call := { call with duration_ms := some ((now - call.timestamp) * 1000) }
  if truthy error then { call with status := pys "error", error := error }
  else { call with status := pys "success", result := result }

/-- The screenshot scan of `complete_tool_call`: iterate over
`result.split("\n")`; on the first line satisfying
`line.startswith("Screenshot saved:")` evaluate `line.split(": ", 1)[1].strip()`
and stop (`break`). When the matching line contains no `": "` the index
access raises `IndexError` (`.error ()`); no matching line leaves the
previous value in place (`.ok none`). -/
def scanScreenshot : List PyStr → Except Unit (Option PyStr)
  | [] => Except.ok none
  | line :: rest =>
    if (pys "Screenshot saved:").isPrefixOf line then
      match afterFirstSep (pys ": ") line with
      | none => Except.error ()
      | some tail => Except.ok (some (pyStrip tail))
    else scanScreenshot rest

/-- `DashboardState.complete_tool_call` (lines 89–116): mutate the record,
run the screenshot scan (which may raise `IndexError`), update the recording
flag, write the mutated record back over its aliased entry in `tool_calls`,
and schedule a `tool_complete` broadcast. On `.error ()` the exception
propagates and no broadcast is scheduled. -/
def complete_tool_call (now : Nat) (st : DashboardState) (call : ToolCall)
    (result error : Option PyStr) : Except Unit (DashboardState × ToolCall × Event) :=
  let call := completeRecord now call result error
  let scanned : Except Unit (Option PyStr) :=
    if call.tool_name = pys "get_screenshot" ∧ truthy result then
      scanScreenshot (splitLines (result.getD []))
    else Except.ok none
  match scanned with
  | Except.error e => Except.error e
  | Except.ok found =>
    let last := match found with
      | some p => some p
      | none => st.last_screenshot
    let recording :=
      if call.tool_name = pys "start_recording" ∧ call.status = pys "success" then true
      else if call.tool_name = pys "stop_recording" ∧ call.status = pys "success" then false
      else st.recording_active
    Except.ok
      ({ st with
          tool_calls := st.tool_calls.map (fun c => if c.id = call.id then call else c)
          last_screenshot := last
          recording_active := recording },
       call,
       Event.tool_complete (to_dict call))

/-- `DashboardState.get_state`: uptime, the serialized last 50 records
(`self.tool_calls[-50:]`), the auxiliary state, and the total counter. -/
def get_state (now : Nat) (st : DashboardState) : StateSnapshot :=
  { uptime := now - st.server_start_time
    tool_calls := (st.tool_calls.drop (st.tool_calls.length - 50)).map to_dict
    device_info := st.device_info
    wda_status := st.wda_status
    last_screenshot := st.last_screenshot
    recording_active := st.recording_active
    total_calls := st.call_counter }

/-- The per-channel loop of `_broadcast`: try to send to each channel; a
channel whose send throws goes into `dead_ws` instead of propagating.
Channels are identified by numeric handles; `fails c = true` models
`ws.send_str` raising for channel `c`. Returns (delivered, dead). -/
def broadcastLoop (fails : Nat → Bool) : List Nat → List Nat × List Nat
  | [] => ([], [])
  | c :: rest =>
    let (d, dd) := broadcastLoop fails rest
    if fails c then (d, c :: dd) else (c :: d, dd)

/-- `DashboardState._broadcast` (lines 134–148): return immediately when the
registry is empty (no serialization), else serialize the message once
(`json.dumps`), attempt delivery to every channel, and drop the failed
channels from the registry. Result: (number of serializations performed,
channels that received the message, surviving registry). Total: a send
failure never surfaces to the caller. -/
def broadcast (fails : Nat → Bool) (websockets : List Nat) (_msg : Event) :
    Nat × List Nat × List Nat :=
  if websockets.isEmpty then (0, [], websockets)
  else
    let (delivered, dead) := broadcastLoop fails websockets
    (1, delivered, websockets.filter (fun c => !dead.contains c))

/-! ## Trace-level system

`handle_websocket` registers a viewer and sends it the `init` snapshot: after
`dashboard_state.websockets.add(ws)` the coroutine runs `await ws.send_json`
without an intervening suspension before the init frame is written to the
connection (aiohttp buffers the frame synchronously before awaiting drain),
so no `create_task`-scheduled broadcast can interleave between the
registration and the enqueueing of the init message on that channel; the
`register` step below is therefore atomic. Broadcast tasks created by the
mutation operations are queued FIFO (`pending`) and executed by `deliver`
steps, which append the message to the inbox of every registered channel
that does not fail and prune the failed ones, exactly as `_broadcast` does. -/

/-- One atomic step of the system: viewer (un)registration, the four ingress
mutations, and the execution of one scheduled broadcast task (`deliver`,
with the set of channels whose send fails during that task). -/
inductive Op where
  | register (now : Nat) (c : Nat)
  | unregister (c : Nat)
  | begin_call (now : Nat) (tool_name : PyStr) (arguments : Args)
  | complete_call (now : Nat) (id : Nat) (result error : Option PyStr)
  | set_device_info (info : Args)
  | set_wda_status (status : Args)
  | deliver (dead : List Nat)
  deriving DecidableEq, Repr

/-- Whole-system state: the store, the FIFO queue of scheduled broadcast
tasks, the registry of live channels, and the per-channel delivery log
(messages in the order the channel received them). -/
structure Sys where
  st : DashboardState
  pending : List Event := []
  websockets : List Nat := []
  inboxes : List (Nat × List Event) := []
  deriving DecidableEq, Repr

/-- The system at process start. -/
def initSys (start : Nat) : Sys :=
  { st := { server_start_time := start } }

/-- Append an event to the inbox of every registered, non-failed channel. -/
def pushAll (ws : List Nat) (dead : List Nat) (ev : Event)
    (inboxes : List (Nat × List Event)) : List (Nat × List Event) :=
  inboxes.map (fun p => if ws.contains p.1 ∧ !dead.contains p.1 then (p.1, p.2 ++ [ev]) else p)

/-- One step of the system. `register` of a channel handle that was already
used is a no-op (each websocket connection is a fresh object, so handles are
never reused); `complete_call` of an unknown id is a no-op (the ingress API
only completes records it obtained from `begin`); a `complete_call` whose
screenshot scan raises mutates the record (the assignments before the raise
already happened) but schedules no broadcast. -/
def applyOp (sys : Sys) (op : Op) : Sys :=
  match op with
  | Op.register now c =>
    if (sys.inboxes.lookup c).isSome then sys
    else
      { sys with
          websockets := c :: sys.websockets
          inboxes := (c, [Event.init (get_state now sys.st)]) :: sys.inboxes }
  | Op.unregister c =>
    { sys with websockets := sys.websockets.filter (fun x => x ≠ c) }
  | Op.begin_call now tool_name arguments =>
    let (st, _, ev) := add_tool_call now tool_name arguments sys.st
    { sys with st := st, pending := sys.pending ++ [ev] }
  | Op.complete_call now id result error =>
    match sys.st.tool_calls.find? (fun c => c.id = id) with
    | none => sys
    | some call =>
      match complete_tool_call now sys.st call result error with
      | Except.ok (st, _, ev) => { sys with st := st, pending := sys.pending ++ [ev] }
      | Except.error _ =>
        { sys with st := { sys.st with
            tool_calls := sys.st.tool_calls.map
              (fun c => if c.id = id then completeRecord now c result error else c) } }
  | Op.set_device_info info =>
    { sys with
        st := { sys.st with device_info := info }
        pending := sys.pending ++ [Event.device_info info] }
  | Op.set_wda_status status =>
    { sys with
        st := { sys.st with wda_status := status }
        pending := sys.pending ++ [Event.wda_status status] }
  | Op.deliver dead =>
    match sys.pending with
    | [] => sys
    | ev :: rest =>
      { sys with
          pending := rest
          inboxes := pushAll sys.websockets dead ev sys.inboxes
          websockets := sys.websockets.filter (fun c => !dead.contains c) }

/-- Run a trace of steps from a system state. -/
def runOps (sys : Sys) : List Op → Sys
  | [] => sys
  | op :: ops => runOps (applyOp sys op) ops

/-- Is an event the `init` snapshot (as opposed to a delta)? -/
def isInit : Event → Bool
  | Event.init _ => true
  | _ => false

/-! ## Iterated `begin` -/

/-- Fold a list of `(now, tool_name, arguments)` triples through
`add_tool_call`, keeping only the store. -/
def runBegins (st : DashboardState) : List (Nat × PyStr × Args) → DashboardState
  | [] => st
  | (now, name, args) :: rest => runBegins (add_tool_call now name args st).1 rest

/-- The records that a sequence of `begin` calls creates when the counter
starts at `k`: ids `k+1, k+2, …`, each pending. -/
def mkRecords (k : Nat) : List (Nat × PyStr × Args) → List ToolCall
  | [] => []
  | (now, name, args) :: rest =>
    { id := k + 1, timestamp := now, tool_name := name, arguments := args } :: mkRecords (k + 1) rest

/-! ## Helper lemmas -/

/-- The per-channel loop delivers to exactly the non-failing channels and
collects exactly the failing ones. -/
theorem broadcastLoop_eq (fails : Nat → Bool) (ws : List Nat) :
    broadcastLoop fails ws = (ws.filter (fun c => !fails c), ws.filter (fun c => fails c)) := by
  induction ws with
  | nil => rfl
  | cons c rest ih =>
    simp only [broadcastLoop, ih, List.filter_cons]
    cases h : fails c <;> simp [h]

/-! ## Claim theorems -/

/-- C8: the transport form of a Record's `result` (built by `to_dict`) is the
result itself when it is absent or at most 500 characters long, and exactly
its first 500 characters when longer; `to_dict` reads the record and builds a
fresh dict, so the stored record is unchanged by serialization. -/
theorem C8_result_truncation (c : ToolCall) :
    (c.result = none → (to_dict c).result = none) ∧
    (∀ s, c.result = some s → s.length ≤ 500 → (to_dict c).result = some s) ∧
    (∀ s, c.result = some s → s.length > 500 → (to_dict c).result = some (s.take 500)) := by
  refine ⟨fun h => ?_, fun s hs hle => ?_, fun s hs hgt => ?_⟩
  · simp [to_dict, truthy, h]
  · have hnot : ¬ s.length > 500 := by omega
    simp [to_dict, truthy, hs, hnot]
  · match s, hgt with
    | a :: t, hgt => simp [to_dict, truthy, hs, hgt]

/-- A record carrying a 501-character result. -/
def longResultRec : ToolCall :=
  { id := 1
    timestamp := 0
    tool_name := pys "tap"
    arguments := []
    status := pys "success"
    result := some (List.replicate 501 'a') }

/-- C8 witness: a 501-character result is truncated to its first 500
characters by serialization. -/
theorem C8_result_truncation_witness :
    ((List.replicate 501 'a').length > 500) ∧
    ((to_dict longResultRec).result = some ((List.replicate 501 'a').take 500)) :=
  ⟨by set_option maxRecDepth 8000 in decide,
   (C8_result_truncation longResultRec).2.2 (List.replicate 501 'a') rfl
     (by set_option maxRecDepth 8000 in decide)⟩

/-- C6: `_broadcast` performs no serialization and delivers nothing when the
registry is empty, otherwise serializes the event exactly once; a failing
channel does not prevent delivery to any other channel (delivery reaches
exactly the non-failing channels), the failure never surfaces to the caller
(`broadcast` is a total function), and exactly the failed channels are
removed from the registry. -/
theorem C6_broadcast_isolation (fails : Nat → Bool) (ws : List Nat) (msg : Event) :
    broadcast fails ws msg =
      ((if ws.isEmpty then 0 else 1),
       ws.filter (fun c => !fails c),
       ws.filter (fun c => !fails c)) := by
  unfold broadcast
  cases hws : ws.isEmpty
  · simp only [hws, Bool.false_eq_true, if_false, broadcastLoop_eq]
    refine congrArg _ (congrArg _ ?_)
    refine List.filter_congr fun a ha => ?_
    have hc : (ws.filter (fun c => fails c)).contains a = fails a := by
      cases h : fails a
      · rw [Bool.eq_false_iff]
        intro habs
        have := List.elem_iff.mp habs
        rw [List.mem_filter] at this
        rw [this.2] at h
        exact Bool.true_eq_false.mp h
      · exact List.elem_iff.mpr (List.mem_filter.mpr ⟨ha, h⟩)
    rw [hc]
  · have : ws = [] := List.isEmpty_iff.mp hws
    simp [this]

/-- C10: after `complete`, the status is `error` iff the `error` argument is
truthy (non-null and non-empty); an empty-string `error` yields `success`
and stores the result; a truthy `error` yields `error` and never stores the
`result` argument (the field keeps its previous value, `None` for a pending
record). -/
theorem C10_error_truthiness (now : Nat) (c : ToolCall) (result error : Option PyStr) :
    ((completeRecord now c result error).status = pys "error" ↔ truthy error = true) ∧
    (error = some (pys "") →
      (completeRecord now c result error).status = pys "success" ∧
      (completeRecord now c result error).result = result) ∧
    (truthy error = true →
      (completeRecord now c result error).status = pys "error" ∧
      (completeRecord now c result error).result = c.result) := by
  refine ⟨?_, fun he => ?_, fun ht => ?_⟩
  · cases h : truthy error
    · simp only [completeRecord, h, Bool.false_eq_true, if_false]
      simp only [Bool.false_eq_true, iff_false]
      decide
    · simp [completeRecord, h]
  · have : truthy error = false := by subst he; rfl
    simp [completeRecord, this]
  · simp [completeRecord, ht]

/-- A concrete pending record used to instantiate witnesses. -/
def pendingRec : ToolCall :=
  { id := 1, timestamp := 2, tool_name := pys "tap", arguments := [] }

/-- C10 witness: instantiated at a pending record completed with a non-empty
error and a non-null result. -/
theorem C10_error_truthiness_witness :
    ((completeRecord 5 pendingRec (some (pys "r")) (some (pys "e"))).status = pys "error"
        ↔ truthy (some (pys "e")) = true) ∧
    ((some (pys "e") : Option PyStr) = some (pys "") →
      (completeRecord 5 pendingRec (some (pys "r")) (some (pys "e"))).status = pys "success" ∧
      (completeRecord 5 pendingRec (some (pys "r")) (some (pys "e"))).result = some (pys "r")) ∧
    (truthy (some (pys "e")) = true →
      (completeRecord 5 pendingRec (some (pys "r")) (some (pys "e"))).status = pys "error" ∧
      (completeRecord 5 pendingRec (some (pys "r")) (some (pys "e"))).result = pendingRec.result) :=
  C10_error_truthiness 5 pendingRec (some (pys "r")) (some (pys "e"))

/-- A `begin` on a fresh store, yielding a pending record to complete. -/
def probeBegin : DashboardState × ToolCall × Event :=
  add_tool_call 0 (pys "tap") [] { server_start_time := 0 }

/-- C3 counterexample: completing a pending Record with both arguments null
is accepted and yields status `success` with `result` and `error` both null —
not "exactly one of result and error set". -/
theorem C3_counterexample :
    (complete_tool_call 5 probeBegin.1 probeBegin.2.1 none none).toOption.map
        (fun x => (x.2.1.status, x.2.1.result, x.2.1.error)) =
      some (pys "success", none, none) := by decide

/-- C3 amended: a freshly created Record is pending with both `result` and
`error` null; after `complete` at most one of `result`/`error` is non-null —
but not always exactly one: completing with both arguments null marks the
Record `success` with both fields still null. -/
theorem C3_amended (now now2 : Nat) (name : PyStr) (args : Args) (st : DashboardState)
    (c : ToolCall) (hc : c = (add_tool_call now name args st).2.1) :
    (c.status = pys "pending" ∧ c.result = none ∧ c.error = none) ∧
    (∀ res err, ¬((completeRecord now2 c res err).result.isSome = true ∧
      (completeRecord now2 c res err).error.isSome = true)) ∧
    ((completeRecord now2 c none none).status = pys "success" ∧
     (completeRecord now2 c none none).result = none ∧
     (completeRecord now2 c none none).error = none) := by
  subst hc
  refine ⟨⟨rfl, rfl, rfl⟩, fun res err => ?_, rfl, rfl, rfl⟩
  rintro ⟨h1, h2⟩
  cases h : truthy err
  · simp [completeRecord, h, add_tool_call] at h2
  · simp [completeRecord, h, add_tool_call] at h1

/-- C3 witness for the amended statement, at a concrete fresh record. -/
theorem C3_amended_witness :
    (probeBegin.2.1.status = pys "pending" ∧ probeBegin.2.1.result = none ∧
      probeBegin.2.1.error = none) ∧
    (∀ res err, ¬((completeRecord 5 probeBegin.2.1 res err).result.isSome = true ∧
      (completeRecord 5 probeBegin.2.1 res err).error.isSome = true)) ∧
    ((completeRecord 5 probeBegin.2.1 none none).status = pys "success" ∧
     (completeRecord 5 probeBegin.2.1 none none).result = none ∧
     (completeRecord 5 probeBegin.2.1 none none).error = none) :=
  C3_amended 0 5 (pys "tap") [] { server_start_time := 0 } probeBegin.2.1 rfl

/-- The first completion of `probeBegin`: a normal successful completion. -/
def c1First : Except Unit (DashboardState × ToolCall × Event) :=
  complete_tool_call 1 probeBegin.1 probeBegin.2.1 (some (pys "ok")) none

/-- The second completion of the same, already terminal, Record. -/
def c1Second : Except Unit (DashboardState × ToolCall × Event) :=
  match c1First with
  | Except.ok (st, c, _) => complete_tool_call 2 st c none (some (pys "boom"))
  | Except.error e => Except.error e

/-- C1 counterexample: `complete_tool_call` has no terminality check. The
first completion leaves the Record terminal (`success`); the second call on
the same Record is accepted (returns normally instead of raising
`InvalidState`) and changes the Record's state to `error`. -/
theorem C1_counterexample :
    (c1First.toOption.map (fun x => x.2.1.status) = some (pys "success")) ∧
    (c1Second.toOption.map (fun x => x.2.1.status) = some (pys "error")) ∧
    (c1Second.toOption.map (fun x => x.2.1.error) = some (some (pys "boom"))) := by decide

/-- C1 amended: a second `complete` on an already-terminal Record is not
rejected — no `InvalidState` exists in the code. The call recomputes
`duration_ms` and re-applies the completion rules, overwriting the Record's
status (and `error` or `result`) according to the new arguments. -/
theorem C1_amended (now : Nat) (c : ToolCall) (res err : Option PyStr)
    (_terminal : c.status = pys "success" ∨ c.status = pys "error") :
    (completeRecord now c res err).status = (if truthy err then pys "error" else pys "success") ∧
    (completeRecord now c res err).duration_ms = some ((now - c.timestamp) * 1000) ∧
    (truthy err = true → (completeRecord now c res err).error = err) ∧
    (truthy err = false → (completeRecord now c res err).result = res) := by
  refine ⟨?_, ?_, fun ht => ?_, fun hf => ?_⟩
  · cases hb : truthy err <;> simp [completeRecord, hb]
  · cases hb : truthy err <;> simp [completeRecord, hb]
  · simp [completeRecord, ht]
  · simp [completeRecord, hf]

/-- A concrete terminal (successfully completed) record. -/
def terminalRec : ToolCall :=
  { id := 1
    timestamp := 0
    tool_name := pys "tap"
    arguments := []
    status := pys "success"
    result := some (pys "ok")
    duration_ms := some 1000 }

/-- C1 witness for the amended statement: re-completing a terminal record
with a truthy error succeeds and flips it to `error`. -/
theorem C1_amended_witness :
    (completeRecord 2 terminalRec none (some (pys "boom"))).status =
      (if truthy (some (pys "boom")) then pys "error" else pys "success") ∧
    (completeRecord 2 terminalRec none (some (pys "boom"))).duration_ms =
      some ((2 - terminalRec.timestamp) * 1000) ∧
    (truthy (some (pys "boom")) = true →
      (completeRecord 2 terminalRec none (some (pys "boom"))).error = some (pys "boom")) ∧
    (truthy (some (pys "boom")) = false →
      (completeRecord 2 terminalRec none (some (pys "boom"))).result = none) :=
  C1_amended 2 terminalRec none (some (pys "boom")) (Or.inl rfl)

/-- A `begin("get_screenshot", {})` on a fresh store. -/
def screenshotBegin : DashboardState × ToolCall × Event :=
  add_tool_call 0 (pys "get_screenshot") [] { server_start_time := 0 }

/-- C9: completing a `get_screenshot` Record with the result line
`"Screenshot saved:x"` (no `": "` separator) raises an uncaught `IndexError`
inside the screenshot-path scan (`complete_tool_call` is `.error ()`), and at
the trace level no broadcast of the updated Record is scheduled (`pending`
stays empty). -/
theorem C9_scan_index_error :
    (complete_tool_call 1 screenshotBegin.1 screenshotBegin.2.1
        (some (pys "Screenshot saved:x")) none = Except.error ()) ∧
    ((applyOp { st := screenshotBegin.1 }
        (Op.complete_call 1 1 (some (pys "Screenshot saved:x")) none)).pending = []) := by decide

/-- The record created by `add_tool_call`: next id, pending, given name and
arguments. -/
theorem add_tool_call_snd (now : Nat) (name : PyStr) (args : Args) (st : DashboardState) :
    (add_tool_call now name args st).2.1 =
      { id := st.call_counter + 1, timestamp := now, tool_name := name, arguments := args } := rfl

/-- `add_tool_call` increments the counter. -/
theorem add_tool_call_counter (now : Nat) (name : PyStr) (args : Args) (st : DashboardState) :
    (add_tool_call now name args st).1.call_counter = st.call_counter + 1 := rfl

/-- `add_tool_call` leaves the capacity bound and every auxiliary field of
the store untouched. -/
theorem add_tool_call_aux (now : Nat) (name : PyStr) (args : Args) (st : DashboardState) :
    (add_tool_call now name args st).1.max_calls = st.max_calls ∧
    (add_tool_call now name args st).1.server_start_time = st.server_start_time ∧
    (add_tool_call now name args st).1.device_info = st.device_info ∧
    (add_tool_call now name args st).1.wda_status = st.wda_status ∧
    (add_tool_call now name args st).1.last_screenshot = st.last_screenshot ∧
    (add_tool_call now name args st).1.recording_active = st.recording_active :=
  ⟨rfl, rfl, rfl, rfl, rfl, rfl⟩

/-- The record list after `add_tool_call`, in the unconditional form: append
the new record, then drop `len + 1 - max` from the front (zero elements when
the capacity is not exceeded). -/
theorem add_tool_call_tool_calls (now : Nat) (name : PyStr) (args : Args) (st : DashboardState) :
    (add_tool_call now name args st).1.tool_calls =
      (st.tool_calls ++ [(add_tool_call now name args st).2.1]).drop
        ((st.tool_calls.length + 1) - st.max_calls) := by
  unfold add_tool_call
  simp only [List.length_append, List.length_cons, List.length_nil, Nat.zero_add]
  split
  · rfl
  · next hle =>
    have h0 : st.tool_calls.length + 1 - st.max_calls = 0 := by omega
    rw [h0, List.drop_zero]

/-- `mkRecords` creates one record per input. -/
theorem mkRecords_length (k : Nat) (l : List (Nat × PyStr × Args)) :
    (mkRecords k l).length = l.length := by
  induction l generalizing k with
  | nil => rfl
  | cons p rest ih =>
    obtain ⟨now, name, args⟩ := p
    simp [mkRecords, ih]

/-- A run of `begin` calls advances the counter by the number of calls. -/
theorem runBegins_counter (inputs : List (Nat × PyStr × Args)) (st : DashboardState) :
    (runBegins st inputs).call_counter = st.call_counter + inputs.length := by
  induction inputs generalizing st with
  | nil => rfl
  | cons p rest ih =>
    obtain ⟨now, name, args⟩ := p
    rw [runBegins, ih, add_tool_call_counter]
    simp only [List.length_cons]
    omega

/-- A run of `begin` calls leaves the capacity bound and the auxiliary
fields untouched. -/
theorem runBegins_aux (inputs : List (Nat × PyStr × Args)) (st : DashboardState) :
    (runBegins st inputs).max_calls = st.max_calls ∧
    (runBegins st inputs).server_start_time = st.server_start_time ∧
    (runBegins st inputs).device_info = st.device_info ∧
    (runBegins st inputs).wda_status = st.wda_status ∧
    (runBegins st inputs).last_screenshot = st.last_screenshot ∧
    (runBegins st inputs).recording_active = st.recording_active := by
  induction inputs generalizing st with
  | nil => exact ⟨rfl, rfl, rfl, rfl, rfl, rfl⟩
  | cons p rest ih =>
    obtain ⟨now, name, args⟩ := p
    rw [runBegins]
    exact ih (add_tool_call now name args st).1

/-- The retained records after a run of `begin` calls from a store within
capacity: the suffix of the full creation sequence that fits the bound. -/
theorem runBegins_tool_calls (inputs : List (Nat × PyStr × Args)) (st : DashboardState)
    (h : st.tool_calls.length ≤ st.max_calls) :
    (runBegins st inputs).tool_calls =
      (st.tool_calls ++ mkRecords st.call_counter inputs).drop
        ((st.tool_calls.length + inputs.length) - st.max_calls) := by
  induction inputs generalizing st with
  | nil =>
    have h0 : st.tool_calls.length - st.max_calls = 0 := by omega
    simp only [runBegins, mkRecords, List.append_nil, List.length_nil, Nat.add_zero, h0,
      List.drop_zero]
  | cons p rest ih =>
    obtain ⟨now, name, args⟩ := p
    have hmax := (add_tool_call_aux now name args st).1
    have htc := add_tool_call_tool_calls now name args st
    have hlen : (add_tool_call now name args st).1.tool_calls.length =
        st.tool_calls.length + 1 - (st.tool_calls.length + 1 - st.max_calls) := by
      rw [htc, List.length_drop]
      simp
    have hle : st.tool_calls.length + 1 - st.max_calls ≤
        (st.tool_calls ++ [(add_tool_call now name args st).2.1]).length := by
      simp only [List.length_append, List.length_cons, List.length_nil, Nat.zero_add]
      exact Nat.sub_le _ _
    rw [runBegins, ih _ (by rw [hlen, hmax]; omega)]
    rw [add_tool_call_counter, hmax, hlen, htc]
    rw [← List.drop_append_of_le_length hle, List.drop_drop, ← List.append_cons,
      add_tool_call_snd]
    simp only [mkRecords, List.length_cons]
    congr 1
    omega

/-- C5: for a sequence of `begin` calls longer than the capacity bound
(default 100), the store retains exactly the most recent 100 records of the
creation sequence in creation order (the oldest are evicted purely
positionally), while `call_counter` equals the total number of `begin` calls,
unaffected by eviction. -/
theorem C5_capacity_eviction (inputs : List (Nat × PyStr × Args)) (start : Nat)
    (h : 100 < inputs.length) :
    (runBegins { server_start_time := start } inputs).call_counter = inputs.length ∧
    (runBegins { server_start_time := start } inputs).tool_calls =
      (mkRecords 0 inputs).drop (inputs.length - 100) ∧
    (runBegins { server_start_time := start } inputs).tool_calls.length = 100 := by
  have hcnt := runBegins_counter inputs { server_start_time := start }
  have htc := runBegins_tool_calls inputs { server_start_time := start } (by simp)
  simp only [List.nil_append, List.length_nil, Nat.zero_add] at hcnt htc
  refine ⟨hcnt, htc, ?_⟩
  rw [htc, List.length_drop, mkRecords_length]
  omega

/-- The C5 witness input: 101 `begin` calls, one more than the capacity. -/
def c5Inputs : List (Nat × PyStr × Args) := List.replicate 101 (0, pys "t", [])

/-- C5 witness: instantiated at 101 `begin` calls. -/
theorem C5_capacity_eviction_witness :
    100 < c5Inputs.length ∧
    ((runBegins { server_start_time := 0 } c5Inputs).call_counter = c5Inputs.length ∧
     (runBegins { server_start_time := 0 } c5Inputs).tool_calls =
       (mkRecords 0 c5Inputs).drop (c5Inputs.length - 100) ∧
     (runBegins { server_start_time := 0 } c5Inputs).tool_calls.length = 100) :=
  ⟨by simp [c5Inputs], C5_capacity_eviction c5Inputs 0 (by simp [c5Inputs])⟩

/-- C7: after N `begin` calls on a fresh store, `get_state` returns the
uptime, the untouched auxiliary state, the total counter N, and the
serialized most recent min(N, 50) records of the creation sequence in
creation order. -/
theorem C7_snapshot_contents (inputs : List (Nat × PyStr × Args)) (st0 : DashboardState)
    (now : Nat) (h0 : st0.tool_calls = []) (h1 : st0.call_counter = 0)
    (h2 : st0.max_calls = 100) :
    get_state now (runBegins st0 inputs) =
      { uptime := now - st0.server_start_time
        tool_calls := ((mkRecords 0 inputs).drop (inputs.length - 50)).map to_dict
        device_info := st0.device_info
        wda_status := st0.wda_status
        last_screenshot := st0.last_screenshot
        recording_active := st0.recording_active
        total_calls := inputs.length } ∧
    ((mkRecords 0 inputs).drop (inputs.length - 50)).length = min inputs.length 50 := by
  obtain ⟨hmax, hsst, hdi, hws, hls, hra⟩ := runBegins_aux inputs st0
  have hcnt := runBegins_counter inputs st0
  have htc := runBegins_tool_calls inputs st0 (by rw [h0]; simp)
  rw [h0, h1, h2] at htc
  simp only [List.nil_append, List.length_nil, Nat.zero_add] at htc
  have hlen2 : ((mkRecords 0 inputs).drop (inputs.length - 50)).length
      = min inputs.length 50 := by
    rw [List.length_drop, mkRecords_length]
    omega
  refine ⟨?_, hlen2⟩
  unfold get_state
  rw [StateSnapshot.mk.injEq]
  refine ⟨by rw [hsst], ?_, by rw [hdi], by rw [hws], by rw [hls], by rw [hra],
    by rw [hcnt, h1, Nat.zero_add]⟩
  rw [htc, List.length_drop, mkRecords_length, List.drop_drop]
  have hidx : inputs.length - 100 + (inputs.length - (inputs.length - 100) - 50)
      = inputs.length - 50 := by omega
  rw [hidx]

/-- The C7 witness input: two `begin` calls. -/
def c7Inputs : List (Nat × PyStr × Args) := [(1, pys "tap", []), (2, pys "swipe", [])]

/-- C7 witness: instantiated at two `begin` calls on a fresh store. -/
theorem C7_snapshot_contents_witness :
    get_state 10 (runBegins { server_start_time := 3 } c7Inputs) =
      { uptime := 7
        tool_calls := ((mkRecords 0 c7Inputs).drop (c7Inputs.length - 50)).map to_dict
        device_info := []
        wda_status := []
        last_screenshot := none
        recording_active := false
        total_calls := c7Inputs.length } ∧
    ((mkRecords 0 c7Inputs).drop (c7Inputs.length - 50)).length = min c7Inputs.length 50 :=
  C7_snapshot_contents c7Inputs { server_start_time := 3 } 10 rfl rfl rfl

/-- `completeRecord` never changes the record's name. -/
theorem completeRecord_tool_name (now : Nat) (c : ToolCall) (res err : Option PyStr) :
    (completeRecord now c res err).tool_name = c.tool_name := by
  cases h : truthy err <;> simp [completeRecord, h]

/-- The screenshot scan skips every leading line that does not carry the
`"Screenshot saved:"` prefix. -/
theorem scanScreenshot_append (pre rest : List PyStr)
    (h : ∀ l ∈ pre, (pys "Screenshot saved:").isPrefixOf l = false) :
    scanScreenshot (pre ++ rest) = scanScreenshot rest := by
  induction pre with
  | nil => rfl
  | cons l pre ih =>
    have hl : (pys "Screenshot saved:").isPrefixOf l = false := h l (List.mem_cons_self l pre)
    rw [List.cons_append]
    simp only [scanScreenshot, hl, Bool.false_eq_true, if_false]
    exact ih (fun x hx => h x (List.mem_cons_of_mem l hx))

/-- The `complete_tool_call` of a `get_screenshot` Record with an error-style
outcome: result text carrying the marker, error non-empty. -/
def c4Result : Except Unit (DashboardState × ToolCall × Event) :=
  complete_tool_call 1 screenshotBegin.1 screenshotBegin.2.1
    (some (pys "Screenshot saved: /tmp/a.png")) (some (pys "boom"))

/-- C4 counterexample: a `get_screenshot` Record completed with BOTH a
marker-carrying result and a non-empty error ends with status `error` (the
completion is not successful), yet `last_screenshot` is updated to
`/tmp/a.png` — the code guards the scan on the truthiness of `result`, not
on a successful completion. -/
theorem C4_counterexample :
    screenshotBegin.1.last_screenshot = none ∧
    (c4Result.toOption.map (fun out => out.2.1.status) = some (pys "error")) ∧
    (c4Result.toOption.map (fun out => out.1.last_screenshot)
      = some (some (pys "/tmp/a.png"))) := by decide

/-- C4 amended: for a `get_screenshot` Record, `complete` updates
`last_screenshot` whenever the `result` argument is truthy and a line of it
starts with `"Screenshot saved:"`, regardless of whether the completion is
successful (the `error` argument is arbitrary in every part below): the
first such line is split at its first `": "` and the remainder, trimmed,
becomes the new path; a falsy `result` or the absence of a marker line
leaves the prior path unchanged. -/
theorem C4_amended (now : Nat) (st : DashboardState) (c : ToolCall) (res err : Option PyStr)
    (hname : c.tool_name = pys "get_screenshot") :
    (truthy res = false →
      (complete_tool_call now st c res err).toOption.map (fun out => out.1.last_screenshot)
        = some st.last_screenshot) ∧
    (∀ r, res = some r → truthy res = true →
      (∀ l ∈ splitLines r, (pys "Screenshot saved:").isPrefixOf l = false) →
      (complete_tool_call now st c res err).toOption.map (fun out => out.1.last_screenshot)
        = some st.last_screenshot) ∧
    (∀ r pre l post tail, res = some r → truthy res = true →
      splitLines r = pre ++ l :: post →
      (∀ x ∈ pre, (pys "Screenshot saved:").isPrefixOf x = false) →
      (pys "Screenshot saved:").isPrefixOf l = true →
      afterFirstSep (pys ": ") l = some tail →
      (complete_tool_call now st c res err).toOption.map (fun out => out.1.last_screenshot)
        = some (some (pyStrip tail))) := by
  refine ⟨fun hf => ?_, fun r hr ht hnone => ?_, fun r pre l post tail hr ht hsplit hpre hl hsep => ?_⟩
  · simp [complete_tool_call, completeRecord_tool_name, hf]
    exact ⟨_, ⟨_, _, rfl⟩, rfl⟩
  · subst hr
    have hscan : scanScreenshot (splitLines r) = Except.ok none := by
      have := scanScreenshot_append (splitLines r) [] hnone
      rw [List.append_nil] at this
      rw [this]
      rfl
    simp [complete_tool_call, completeRecord_tool_name, hname, ht, hscan]
    exact ⟨_, ⟨_, _, rfl⟩, rfl⟩
  · subst hr
    have hscan : scanScreenshot (splitLines r) = Except.ok (some (pyStrip tail)) := by
      rw [hsplit, scanScreenshot_append pre (l :: post) hpre]
      simp only [scanScreenshot, hl, if_true, hsep]
    simp [complete_tool_call, completeRecord_tool_name, hname, ht, hscan]
    exact ⟨_, ⟨_, _, rfl⟩, rfl⟩

/-- C4 witness: the marker branch of the amended statement, instantiated at
an error-style completion whose result carries a marker line. -/
theorem C4_amended_witness :
    (complete_tool_call 1 screenshotBegin.1 screenshotBegin.2.1
        (some (pys "Screenshot saved: /a.png")) (some (pys "boom"))).toOption.map
        (fun out => out.1.last_screenshot)
      = some (some (pyStrip (pys "/a.png"))) :=
  (C4_amended 1 screenshotBegin.1 screenshotBegin.2.1
      (some (pys "Screenshot saved: /a.png")) (some (pys "boom")) rfl).2.2
    (pys "Screenshot saved: /a.png") [] (pys "Screenshot saved: /a.png") [] (pys "/a.png")
    rfl rfl (by decide) (by simp) (by decide) (by decide)

/-! ## The init-before-deltas invariant (C2) -/

/-- Unfolding `pushAll` over the head of the inbox list. -/
theorem pushAll_cons (ws dead : List Nat) (ev : Event) (k : Nat) (evs : List Event)
    (l : List (Nat × List Event)) :
    pushAll ws dead ev ((k, evs) :: l) =
      (if ws.contains k ∧ !dead.contains k then (k, evs ++ [ev]) else (k, evs)) ::
        pushAll ws dead ev l := by
  simp [pushAll]

/-- Looking a channel up after `pushAll`: the channel's previous inbox, with
the event appended exactly when the channel is registered and not failed. -/
theorem lookup_pushAll (ws dead : List Nat) (ev : Event) (l : List (Nat × List Event))
    (c : Nat) :
    (pushAll ws dead ev l).lookup c =
      (l.lookup c).map (fun evs =>
        if ws.contains c ∧ !dead.contains c then evs ++ [ev] else evs) := by
  induction l with
  | nil => rfl
  | cons p l ih =>
    obtain ⟨k, evs⟩ := p
    rw [pushAll_cons]
    by_cases hck : c = k
    · subst hck
      by_cases hcond : (ws.contains c = true) ∧ ((!dead.contains c) = true)
      · rw [if_pos hcond]
        simp only [List.lookup, beq_self_eq_true, Option.map_some']
        rw [if_pos hcond]
      · rw [if_neg hcond]
        simp only [List.lookup, beq_self_eq_true, Option.map_some']
        rw [if_neg hcond]
    · have hbeq : (c == k) = false := by simpa using hck
      by_cases hcond : (ws.contains k = true) ∧ ((!dead.contains k) = true)
      · rw [if_pos hcond]
        simp [List.lookup, hbeq, ih]
      · rw [if_neg hcond]
        simp [List.lookup, hbeq, ih]

/-- The induction invariant for C2: every scheduled broadcast task is a
delta (never an `init`), and every channel's inbox is the `init` snapshot it
received at registration followed only by deltas. -/
def SysInv (sys : Sys) : Prop :=
  (∀ e ∈ sys.pending, isInit e = false) ∧
  (∀ c evs, sys.inboxes.lookup c = some evs →
    ∃ snap rest, evs = Event.init snap :: rest ∧ ∀ e ∈ rest, isInit e = false)

/-- The invariant holds at process start. -/
theorem sysInv_init (start : Nat) : SysInv (initSys start) := by
  constructor
  · intro e he
    simp [initSys] at he
  · intro c evs h
    simp [initSys, List.lookup] at h

/-- A successful `complete_tool_call` always schedules the `tool_complete`
broadcast of the mutated record. -/
theorem complete_tool_call_event (now : Nat) (st : DashboardState) (c : ToolCall)
    (res err : Option PyStr) (st' : DashboardState) (c' : ToolCall) (ev : Event)
    (h : complete_tool_call now st c res err = Except.ok (st', c', ev)) :
    ev = Event.tool_complete (to_dict (completeRecord now c res err)) := by
  simp only [complete_tool_call] at h
  cases hscan : (if (completeRecord now c res err).tool_name = pys "get_screenshot" ∧
      truthy res = true then scanScreenshot (splitLines (res.getD [])) else Except.ok none) with
  | error e0 =>
    rw [hscan] at h
    simp at h
  | ok found =>
    rw [hscan] at h
    simp only [Except.ok.injEq, Prod.mk.injEq] at h
    exact h.2.2.symm

/-- Every step of the system preserves the invariant: registration creates
an inbox that starts with `init`; mutations only enqueue deltas; delivery
appends a queued delta to (some) inboxes. -/
theorem sysInv_applyOp (sys : Sys) (op : Op) (h : SysInv sys) : SysInv (applyOp sys op) := by
  obtain ⟨hp, hi⟩ := h
  cases op with
  | register now c =>
    simp only [applyOp]
    split
    · exact ⟨hp, hi⟩
    · refine ⟨hp, fun c2 evs hlook => ?_⟩
      by_cases hc2 : c2 = c
      · subst hc2
        simp only [List.lookup, beq_self_eq_true, Option.some.injEq] at hlook
        exact ⟨get_state now sys.st, [], hlook.symm, by simp⟩
      · have hbeq : (c2 == c) = false := by simpa using hc2
        simp only [List.lookup, hbeq] at hlook
        exact hi c2 evs hlook
  | unregister c => exact ⟨hp, hi⟩
  | begin_call now name args =>
    refine ⟨fun e he => ?_, hi⟩
    have he2 : e ∈ sys.pending ++
        [Event.tool_call (to_dict (add_tool_call now name args sys.st).2.1)] := he
    rcases List.mem_append.mp he2 with h1 | h1
    · exact hp e h1
    · simp only [List.mem_singleton] at h1
      subst h1
      rfl
  | complete_call now id res err =>
    cases hfind : sys.st.tool_calls.find? (fun x => x.id = id) with
    | none =>
      simp only [applyOp, hfind]
      exact ⟨hp, hi⟩
    | some call =>
      cases hcomp : complete_tool_call now sys.st call res err with
      | ok out =>
        obtain ⟨st', c', ev'⟩ := out
        have hevent := complete_tool_call_event now sys.st call res err st' c' ev' hcomp
        simp only [applyOp, hfind, hcomp]
        refine ⟨fun e he => ?_, hi⟩
        rcases List.mem_append.mp he with h1 | h1
        · exact hp e h1
        · simp only [List.mem_singleton] at h1
          subst h1
          rw [hevent]
          rfl
      | error e0 =>
        simp only [applyOp, hfind, hcomp]
        exact ⟨hp, hi⟩
  | set_device_info info =>
    refine ⟨fun e he => ?_, hi⟩
    have he2 : e ∈ sys.pending ++ [Event.device_info info] := he
    rcases List.mem_append.mp he2 with h1 | h1
    · exact hp e h1
    · simp only [List.mem_singleton] at h1
      subst h1
      rfl
  | set_wda_status status =>
    refine ⟨fun e he => ?_, hi⟩
    have he2 : e ∈ sys.pending ++ [Event.wda_status status] := he
    rcases List.mem_append.mp he2 with h1 | h1
    · exact hp e h1
    · simp only [List.mem_singleton] at h1
      subst h1
      rfl
  | deliver dead =>
    cases hpend : sys.pending with
    | nil =>
      simp only [applyOp, hpend]
      exact ⟨hp, hi⟩
    | cons ev rest =>
      simp only [applyOp, hpend]
      have hev : isInit ev = false := hp ev (by rw [hpend]; exact List.mem_cons_self ev rest)
      constructor
      · intro e he
        exact hp e (by rw [hpend]; exact List.mem_cons_of_mem ev he)
      · intro c2 evs2 hlook
        rw [lookup_pushAll] at hlook
        cases hold : sys.inboxes.lookup c2 with
        | none =>
          rw [hold] at hlook
          simp at hlook
        | some evs0 =>
          rw [hold] at hlook
          simp only [Option.map_some'] at hlook
          obtain ⟨snap, rest0, heq, hall⟩ := hi c2 evs0 hold
          subst heq
          by_cases hcond : (sys.websockets.contains c2 = true) ∧ ((!dead.contains c2) = true)
          · rw [if_pos hcond] at hlook
            have hev2 : evs2 = (Event.init snap :: rest0) ++ [ev] :=
              (Option.some.inj hlook).symm
            subst hev2
            refine ⟨snap, rest0 ++ [ev], by simp, fun e he => ?_⟩
            rcases List.mem_append.mp he with h1 | h1
            · exact hall e h1
            · simp only [List.mem_singleton] at h1
              subst h1
              exact hev
          · rw [if_neg hcond] at hlook
            have hev2 : evs2 = Event.init snap :: rest0 := (Option.some.inj hlook).symm
            subst hev2
            exact ⟨snap, rest0, rfl, hall⟩

/-- The invariant holds along every trace from process start. -/
theorem sysInv_runOps (ops : List Op) (sys : Sys) (h : SysInv sys) : SysInv (runOps sys ops) := by
  induction ops generalizing sys with
  | nil => exact h
  | cons op ops ih => exact ih _ (sysInv_applyOp sys op h)

/-- C2: along every trace of system steps from process start, every viewer
channel's delivery log is its registration-time `init` snapshot followed
only by delta events — exactly one `init`, delivered before any delta can
reach the channel. (Registration is atomic here because `handle_websocket`
writes the init frame to the freshly added connection before its coroutine
can suspend, so no scheduled broadcast task can run in between.) -/
theorem C2_init_before_deltas (start : Nat) (ops : List Op) (c : Nat) (evs : List Event)
    (h : (runOps (initSys start) ops).inboxes.lookup c = some evs) :
    ∃ snap rest, evs = Event.init snap :: rest ∧ ∀ e ∈ rest, isInit e = false :=
  (sysInv_runOps ops (initSys start) (sysInv_init start)).2 c evs h

/-- A concrete trace: a `begin`, then a viewer registration, then one
delivered broadcast task. -/
def c2Ops : List Op := [Op.begin_call 0 (pys "tap") [], Op.register 1 7, Op.deliver []]

/-- Channel 7's delivery log after the trace `c2Ops`. -/
def c2Evs : List Event := ((runOps (initSys 0) c2Ops).inboxes.lookup 7).getD []

/-- C2 witness: instantiated on the concrete trace `c2Ops`, where channel 7
received its `init` snapshot followed by the delivered `tool_call` delta. -/
theorem C2_init_before_deltas_witness :
    ∃ snap rest, c2Evs = Event.init snap :: rest ∧ ∀ e ∈ rest, isInit e = false :=
  C2_init_before_deltas 0 c2Ops 7 c2Evs rfl
